import Mathlib

/-!
Shallow embedding of the NetskopeEntraUpdate repository
(src/UpdateEntraUsers.py and src/updateUsersURLlib3.py).  The two Python
files implement the same reconciliation logic over two different HTTP
transports (requests vs urllib3), so a single embedding covers both; the
line references in the doc comments name the requests-based file.

Modelling conventions:
- Network interaction is a fetch oracle: a function from the request data
  (a page index, a SCIM startIndex, or a group id) to either a transport
  error or the decoded JSON response.  A transport error stands for the
  RequestException / urllib3 exception path of the source.
- JSON objects are structures whose possibly-absent fields are Option.
- The unbounded while-loops of the source take explicit fuel; the outer
  Option of a result is none exactly when the fuel ran out, so termination
  statements say the loop returns some result.  Each paginated function
  also reports how many page requests it issued, which makes request-count
  and no-request properties statable.
- Python truthiness on strings and optional strings (None and the empty
  string are falsy) is modelled explicitly, because the source guards with
  "if not group_id", "if netskope_id" and friends.
-/

/-- Python truthiness of a value that is either None or a string:
None and the empty string are falsy, every other string is truthy. -/
def optStrTruthy : Option String → Bool
  | none => false
  | some s => s != ""

/-- Python str.lower modelled character-wise (String.toLower of core is
kernel-opaque; this map is its executable equivalent on the ASCII data the
source compares). -/
def pyLower (s : String) : String := ⟨s.data.map Char.toLower⟩

/-- A transport-level failure (requests.exceptions.RequestException in
UpdateEntraUsers.py, the generic exception path in updateUsersURLlib3.py). -/
structure TransportError where
  msg : String
deriving DecidableEq, Repr

-- ==============================
-- Netskope SCIM data model
-- ==============================

/-- One entry of a SCIM "Resources" list (a group or a user as the source
reads it): the source indexes "id" directly and reads "displayName" and
"userName" with .get, so those two are optional here. -/
structure ScimResource where
  id : String
  displayName : Option String
  userName : Option String
deriving DecidableEq, Repr

/-- One decoded page of a SCIM listing response: the source reads
data.get("Resources", []) and data.get("totalResults", 0), so the structure
holds the two values after those defaults are applied. -/
structure ScimPage where
  resources : List ScimResource
  totalResults : Nat
deriving DecidableEq, Repr

/-- One member entry of a Netskope group response; the source keeps an entry
only if the "display" key is present, so the field is optional. -/
structure NetskopeMemberEntry where
  display : Option String
deriving DecidableEq, Repr

/-- The decoded body of GET /Groups/{id}?attributes=members: the source
reads data.get("members", []), so the members list is optional here and a
missing list models a response without that key. -/
structure NetskopeGroupResponse where
  members : Option (List NetskopeMemberEntry)
deriving DecidableEq, Repr

-- ==============================
-- SCIM PATCH payload model
-- ==============================

/-- One element of the "value" list of the PATCH operation, the dictionary
literally built as "value": user_id in the source. -/
structure MemberRef where
  value : String
deriving DecidableEq, Repr

/-- One SCIM patch operation, as built at UpdateEntraUsers.py lines 377-386. -/
structure PatchOperation where
  op : String
  path : String
  value : List MemberRef
deriving DecidableEq, Repr

/-- The full SCIM PatchOp request body. -/
structure PatchPayload where
  operations : List PatchOperation
  schemas : List String
deriving DecidableEq, Repr

/-- Observable outcome of update_netskope_group: either the payload it
submitted, or the logged skip of the early return. -/
structure UpdateOutcome where
  payload : Option PatchPayload
  skipLogged : Bool
deriving DecidableEq, Repr

/-- update_netskope_group (UpdateEntraUsers.py lines 359-398,
updateUsersURLlib3.py lines 249-272): returns with a logged skip when the
group id is falsy or the id list is empty, and otherwise builds and submits
the single-operation add payload.  The HTTP outcome of the submission is
not needed by any claim, so the model stops at the submitted payload. -/
def update_netskope_group (group_id : Option String) (user_ids_to_add : List String) :
    UpdateOutcome :=
  if !optStrTruthy group_id || user_ids_to_add.isEmpty then
    ⟨none, true⟩
  else
    ⟨some ⟨[⟨"add", "members", user_ids_to_add.map MemberRef.mk⟩],
           ["urn:ietf:params:scim:api:messages:2.0:PatchOp"]⟩,
     false⟩

/-- get_netskope_group_members (UpdateEntraUsers.py lines 269-300,
updateUsersURLlib3.py lines 194-215): empty list without a request for a
falsy group id; otherwise one GET whose transport failure is re-raised, and
whose members list defaults to empty when the key is absent; each member
contributes its "display" value when that key is present.  The second
component counts the HTTP requests issued. -/
def get_netskope_group_members (group_id : Option String)
    (fetch : String → Except TransportError NetskopeGroupResponse) :
    Except TransportError (List String) × Nat :=
  if optStrTruthy group_id then
    match fetch (group_id.getD "") with
    | .error e => (.error e, 1)
    | .ok data =>
      (.ok ((data.members.getD []).filterMap (fun m => m.display)), 1)
  else
    (.ok [], 0)

-- ==============================
-- Netskope paginated lookups
-- ==============================

/-- The pagination loop of get_netskope_group_id (UpdateEntraUsers.py lines
228-266, updateUsersURLlib3.py lines 169-192).  The fetch oracle maps a
startIndex to the decoded page.  Per iteration: a transport error is
re-raised (Except.error); an empty Resources list returns NotFound; the
first resource whose displayName equals the target name returns its id;
when totalResults < startIndex + count or a short page is seen, NotFound;
otherwise the loop advances startIndex by count.  The Nat result counts the
requests issued from this call on. -/
def get_netskope_group_id_loop (fetch : Nat → Except TransportError ScimPage)
    (group_name : String) (count : Nat) :
    Nat → Nat → Option (Except TransportError (Option String)) × Nat
  | _, 0 => (none, 0)
  | start_index, fuel + 1 =>
    match fetch start_index with
    | .error e => (some (.error e), 1)
    | .ok page =>
      if page.resources.isEmpty then (some (.ok none), 1)
      else
        match page.resources.find? (fun g => g.displayName == some group_name) with
        | some g => (some (.ok (some g.id)), 1)
        | none =>
          if page.totalResults < start_index + count || page.resources.length < count then
            (some (.ok none), 1)
          else
            let r := get_netskope_group_id_loop fetch group_name count (start_index + count) fuel
            (r.1, r.2 + 1)

/-- get_netskope_group_id: the loop above entered with startIndex 1 and the
hard-coded page size 100 of the source. -/
def get_netskope_group_id (fetch : Nat → Except TransportError ScimPage)
    (group_name : String) (fuel : Nat) :
    Option (Except TransportError (Option String)) × Nat :=
  get_netskope_group_id_loop fetch group_name 100 1 fuel

/-- The pagination loop of get_netskope_user_id (UpdateEntraUsers.py lines
316-356, updateUsersURLlib3.py lines 224-247).  Identical page policy to
the group loop, except that the match compares userName case-insensitively
with a default of the empty string, and a transport error is swallowed into
NotFound (return None) instead of being re-raised. -/
def get_netskope_user_id_loop (fetch : Nat → Except TransportError ScimPage)
    (username : String) (count : Nat) :
    Nat → Nat → Option (Option String) × Nat
  | _, 0 => (none, 0)
  | start_index, fuel + 1 =>
    match fetch start_index with
    | .error _ => (some none, 1)
    | .ok page =>
      if page.resources.isEmpty then (some none, 1)
      else
        match page.resources.find?
            (fun u => pyLower (u.userName.getD "") == pyLower username) with
        | some u => (some (some u.id), 1)
        | none =>
          if page.totalResults < start_index + count || page.resources.length < count then
            (some none, 1)
          else
            let r := get_netskope_user_id_loop fetch username count (start_index + count) fuel
            (r.1, r.2 + 1)

/-- get_netskope_user_id: the loop above entered with startIndex 1 and the
hard-coded page size 100 of the source. -/
def get_netskope_user_id (fetch : Nat → Except TransportError ScimPage)
    (username : String) (fuel : Nat) :
    Option (Option String) × Nat :=
  get_netskope_user_id_loop fetch username 100 1 fuel

/-- An honest SCIM server over a fixed resource list: the page at a given
startIndex is the next count resources in provider order, and totalResults
reports the true total. -/
def honestScimFetch (items : List ScimResource) (count : Nat) :
    Nat → Except TransportError ScimPage :=
  fun start_index => .ok ⟨(items.drop (start_index - 1)).take count, items.length⟩

-- ==============================
-- Theorems for claims C7 and C8
-- ==============================

/-- C7: for every non-empty list of user ids (and a truthy group id, without
which the function does not build a body at all), update_netskope_group
deterministically submits the fixed-shape payload: exactly one operation
with op "add" and path "members", whose value lists one MemberRef per input
id in input order, alongside the single SCIM PatchOp schema string. -/
theorem patch_payload_shape (group_id : Option String) (ids : List String)
    (hg : optStrTruthy group_id = true) (hids : ids ≠ []) :
    update_netskope_group group_id ids =
      ⟨some ⟨[⟨"add", "members", ids.map MemberRef.mk⟩],
             ["urn:ietf:params:scim:api:messages:2.0:PatchOp"]⟩,
       false⟩ := by
  unfold update_netskope_group
  have hne : ids.isEmpty = false := by
    cases ids with
    | nil => exact absurd rfl hids
    | cons a l => rfl
  rw [hg, hne]
  rfl

/-- Witness for patch_payload_shape at a concrete group id and id list. -/
theorem patch_payload_shape_witness :
    update_netskope_group (some "grp-1") ["u1", "u2"] =
      ⟨some ⟨[⟨"add", "members", [⟨"u1"⟩, ⟨"u2"⟩]⟩],
             ["urn:ietf:params:scim:api:messages:2.0:PatchOp"]⟩,
       false⟩ :=
  patch_payload_shape (some "grp-1") ["u1", "u2"] rfl (by simp)

/-- C8: when the group response carries no members field (modelled as the
members list being absent), get_netskope_group_members returns the empty
list rather than an error, for every truthy group id reaching the request. -/
theorem netskope_members_missing_field_empty (group_id : Option String)
    (fetch : String → Except TransportError NetskopeGroupResponse)
    (hg : optStrTruthy group_id = true)
    (hresp : fetch (group_id.getD "") = .ok ⟨none⟩) :
    get_netskope_group_members group_id fetch = (.ok [], 1) := by
  unfold get_netskope_group_members
  rw [hg]
  simp only [if_true, hresp]
  rfl

/-- Witness for netskope_members_missing_field_empty at a concrete group id
and a server whose response lacks the members key. -/
theorem netskope_members_missing_field_empty_witness :
    get_netskope_group_members (some "gid-9") (fun _ => .ok ⟨none⟩) = (.ok [], 1) :=
  netskope_members_missing_field_empty (some "gid-9") (fun _ => .ok ⟨none⟩) rfl rfl

-- ==============================
-- Entra (Graph) data model
-- ==============================

/-- One raw member entry of a Graph members page, with the three fields the
source reads via .get; each may be absent. -/
structure EntraRawMember where
  odataType : Option String
  displayName : Option String
  userPrincipalName : Option String
deriving DecidableEq, Repr

/-- A member the source keeps: the dictionary with the two required fields
appended to members_data. -/
structure EntraMember where
  displayName : String
  userPrincipalName : String
deriving DecidableEq, Repr

/-- One decoded Graph members page: the "value" list and the optional
@odata.nextLink cursor.  Opaque page URLs are modelled as Nat indices into
the providers page sequence. -/
structure EntraPage where
  value : List EntraRawMember
  nextLink : Option Nat
deriving DecidableEq, Repr

/-- The filter at UpdateEntraUsers.py line 199: type tag equals
#microsoft.graph.user and both displayName and userPrincipalName are truthy
(present and non-empty, matching the Python truthiness test). -/
def entraAccept (m : EntraRawMember) : Bool :=
  m.odataType == some "#microsoft.graph.user"
    && optStrTruthy m.displayName && optStrTruthy m.userPrincipalName

/-- The projection appended for an accepted entry. -/
def entraProject (m : EntraRawMember) : Option EntraMember :=
  if entraAccept m then some ⟨m.displayName.getD "", m.userPrincipalName.getD ""⟩
  else none

/-- The while-url loop of get_entra_group_members (UpdateEntraUsers.py lines
186-206, updateUsersURLlib3.py lines 136-154): fetch the current page, abort
the whole listing on a transport error, append the accepted entries, and
continue with the nextLink until it is absent.  The Nat result counts the
page requests issued. -/
def get_entra_group_members_loop (fetch : Nat → Except TransportError EntraPage) :
    Option Nat → List EntraMember → Nat →
      Option (Except TransportError (List EntraMember)) × Nat
  | none, acc, _ => (some (.ok acc), 0)
  | some _, _, 0 => (none, 0)
  | some u, acc, fuel + 1 =>
    match fetch u with
    | .error e => (some (.error e), 1)
    | .ok page =>
      let r := get_entra_group_members_loop fetch page.nextLink
        (acc ++ page.value.filterMap entraProject) fuel
      (r.1, r.2 + 1)

/-- get_entra_group_members (UpdateEntraUsers.py lines 171-210): empty list
without any request for a falsy group id, otherwise the pagination loop
starting at the first page. -/
def get_entra_group_members (group_id : Option String)
    (fetch : Nat → Except TransportError EntraPage) (fuel : Nat) :
    Option (Except TransportError (List EntraMember)) × Nat :=
  if optStrTruthy group_id then
    get_entra_group_members_loop fetch (some 0) [] fuel
  else
    (some (.ok []), 0)

/-- A well-behaved Graph server serving a fixed sequence of page bodies:
page i carries the i-th body and links to page i+1 while one exists. -/
def chainPages (pagesv : List (List EntraRawMember)) :
    Nat → Except TransportError EntraPage :=
  fun i => .ok ⟨(pagesv.drop i).headD [],
                if i + 1 < pagesv.length then some (i + 1) else none⟩

/-- The same server except that fetching page j fails with a transport
error. -/
def chainPagesErr (pagesv : List (List EntraRawMember)) (j : Nat)
    (e : TransportError) : Nat → Except TransportError EntraPage :=
  fun i => if i = j then .error e else chainPages pagesv i

-- ==============================
-- Theorems for claims C4 and C10
-- ==============================

/-- C4: on a transport-level failure of the underlying request, the user
lookup swallows the error into NotFound (returns none) while the group
lookup re-raises it: with a fetch oracle failing on the first page, the user
resolution terminates with result none and the group resolution terminates
with the re-raised error, each after exactly one request. -/
theorem netskope_transport_error_asymmetry
    (fetch : Nat → Except TransportError ScimPage) (name : String)
    (e : TransportError) (fuel : Nat) (hfail : fetch 1 = .error e) :
    get_netskope_user_id fetch name (fuel + 1) = (some none, 1)
    ∧ get_netskope_group_id fetch name (fuel + 1) = (some (.error e), 1) := by
  constructor
  · simp [get_netskope_user_id, get_netskope_user_id_loop, hfail]
  · simp [get_netskope_group_id, get_netskope_group_id_loop, hfail]

/-- Witness for netskope_transport_error_asymmetry on a concrete failing
server. -/
theorem netskope_transport_error_asymmetry_witness :
    get_netskope_user_id (fun _ => .error ⟨"connection reset"⟩) "alice@x.com" 1
        = (some none, 1)
    ∧ get_netskope_group_id (fun _ => .error ⟨"connection reset"⟩) "alice@x.com" 1
        = (some (.error ⟨"connection reset"⟩), 1) :=
  netskope_transport_error_asymmetry
    (fun _ => .error ⟨"connection reset"⟩) "alice@x.com" ⟨"connection reset"⟩ 0 rfl

/-- C10: for a falsy (None or empty) group identifier, both member listings
return the empty list with zero requests issued, for every fetch oracle. -/
theorem falsy_group_id_yields_empty_without_request (gid : Option String)
    (hg : optStrTruthy gid = false) :
    (∀ (fetch : Nat → Except TransportError EntraPage) (fuel : Nat),
        get_entra_group_members gid fetch fuel = (some (.ok []), 0))
    ∧ ∀ fetchN : String → Except TransportError NetskopeGroupResponse,
        get_netskope_group_members gid fetchN = (.ok [], 0) := by
  constructor
  · intro fetch fuel
    simp [get_entra_group_members, hg]
  · intro fetchN
    simp [get_netskope_group_members, hg]

/-- Witness for falsy_group_id_yields_empty_without_request at a None group
id and concrete servers. -/
theorem falsy_group_id_yields_empty_without_request_witness :
    get_entra_group_members none (fun _ => .ok ⟨[], none⟩) 5 = (some (.ok []), 0)
    ∧ get_netskope_group_members none (fun _ => .ok ⟨none⟩) = (.ok [], 0) :=
  ⟨(falsy_group_id_yields_empty_without_request none rfl).1 (fun _ => .ok ⟨[], none⟩) 5,
   (falsy_group_id_yields_empty_without_request none rfl).2 (fun _ => .ok ⟨none⟩)⟩

-- ==============================
-- Pagination counting lemmas
-- ==============================

/-- Scanning an honest server that contains no match: starting at page k the
group loop terminates with NotFound and issues one request per remaining
block of count items. -/
theorem group_loop_full_scan (items : List ScimResource) (name : String) (count : Nat)
    (hc : 0 < count) (hnm : ∀ g ∈ items, g.displayName ≠ some name) :
    ∀ (fuel k : Nat), k * count < items.length →
      items.length ≤ k * count + fuel * count →
      get_netskope_group_id_loop (honestScimFetch items count) name count (k * count + 1) fuel
        = (some (.ok none), (items.length - k * count + count - 1) / count) := by
  intro fuel
  induction fuel with
  | zero =>
    intro k h1 h2
    simp only [Nat.zero_mul, Nat.add_zero] at h2
    omega
  | succ fuel ih =>
    intro k h1 h2
    have hfetch : honestScimFetch items count (k * count + 1)
        = .ok ⟨(items.drop (k * count)).take count, items.length⟩ := by
      simp [honestScimFetch]
    have hlen : ((items.drop (k * count)).take count).length
        = min count (items.length - k * count) := by
      simp [List.length_take, List.length_drop]
    have hlenpos : 0 < ((items.drop (k * count)).take count).length := by
      rw [hlen]; omega
    have hne : ((items.drop (k * count)).take count).isEmpty = false := by
      cases hx : (items.drop (k * count)).take count with
      | nil => rw [hx] at hlenpos; simp at hlenpos
      | cons a l => rfl
    have hfind : ((items.drop (k * count)).take count).find?
        (fun g => g.displayName == some name) = none := by
      rw [List.find?_eq_none]
      intro g hg
      have hmem : g ∈ items := List.drop_subset _ _ (List.take_subset _ _ hg)
      simp only [beq_iff_eq]
      exact hnm g hmem
    rw [Nat.succ_mul] at h2
    simp only [get_netskope_group_id_loop, hfetch, hne, hfind, Bool.false_eq_true,
      if_false]
    by_cases hcase : items.length ≤ k * count + count
    · have hcond : items.length < k * count + 1 + count := by omega
      have hdiv : (items.length - k * count + count - 1) / count = 1 := by
        have e1 : items.length - k * count + count - 1
            = (items.length - k * count - 1) + count := by omega
        rw [e1, Nat.add_div_right _ hc, Nat.div_eq_of_lt (by omega)]
      simp [hcond, hdiv]
    · have hcond1 : ¬ (items.length < k * count + 1 + count) := by omega
      have hcond2 : ¬ (((items.drop (k * count)).take count).length < count) := by
        rw [hlen]; omega
      simp only [hcond1, hcond2, decide_eq_true_eq, decide_False, Bool.or_self,
        if_false, decide_eq_false_iff_not]
      have hidx : k * count + 1 + count = (k + 1) * count + 1 := by ring
      have hsm : (k + 1) * count = k * count + count := Nat.succ_mul k count
      have hih := ih (k + 1) (by omega) (by omega)
      rw [hidx, hih]
      have hm : count < items.length - k * count := by omega
      have e1 : items.length - (k + 1) * count + count - 1
          = items.length - k * count - 1 := by omega
      have e2 : items.length - k * count + count - 1
          = (items.length - k * count - 1) + count := by omega
      rw [e1, e2, Nat.add_div_right _ hc]
      simp

/-- The same full-scan count for the user loop with its case-insensitive
userName match. -/
theorem user_loop_full_scan (items : List ScimResource) (uname : String) (count : Nat)
    (hc : 0 < count) (hnm : ∀ u ∈ items, pyLower (u.userName.getD "") ≠ pyLower uname) :
    ∀ (fuel k : Nat), k * count < items.length →
      items.length ≤ k * count + fuel * count →
      get_netskope_user_id_loop (honestScimFetch items count) uname count (k * count + 1) fuel
        = (some none, (items.length - k * count + count - 1) / count) := by
  intro fuel
  induction fuel with
  | zero =>
    intro k h1 h2
    simp only [Nat.zero_mul, Nat.add_zero] at h2
    omega
  | succ fuel ih =>
    intro k h1 h2
    have hfetch : honestScimFetch items count (k * count + 1)
        = .ok ⟨(items.drop (k * count)).take count, items.length⟩ := by
      simp [honestScimFetch]
    have hlen : ((items.drop (k * count)).take count).length
        = min count (items.length - k * count) := by
      simp [List.length_take, List.length_drop]
    have hlenpos : 0 < ((items.drop (k * count)).take count).length := by
      rw [hlen]; omega
    have hne : ((items.drop (k * count)).take count).isEmpty = false := by
      cases hx : (items.drop (k * count)).take count with
      | nil => rw [hx] at hlenpos; simp at hlenpos
      | cons a l => rfl
    have hfind : ((items.drop (k * count)).take count).find?
        (fun u => pyLower (u.userName.getD "") == pyLower uname) = none := by
      rw [List.find?_eq_none]
      intro u hu
      have hmem : u ∈ items := List.drop_subset _ _ (List.take_subset _ _ hu)
      simp only [beq_iff_eq]
      exact hnm u hmem
    rw [Nat.succ_mul] at h2
    simp only [get_netskope_user_id_loop, hfetch, hne, hfind, Bool.false_eq_true,
      if_false]
    by_cases hcase : items.length ≤ k * count + count
    · have hcond : items.length < k * count + 1 + count := by omega
      have hdiv : (items.length - k * count + count - 1) / count = 1 := by
        have e1 : items.length - k * count + count - 1
            = (items.length - k * count - 1) + count := by omega
        rw [e1, Nat.add_div_right _ hc, Nat.div_eq_of_lt (by omega)]
      simp [hcond, hdiv]
    · have hcond1 : ¬ (items.length < k * count + 1 + count) := by omega
      have hcond2 : ¬ (((items.drop (k * count)).take count).length < count) := by
        rw [hlen]; omega
      simp only [hcond1, hcond2, decide_eq_true_eq, decide_False, Bool.or_self,
        if_false, decide_eq_false_iff_not]
      have hidx : k * count + 1 + count = (k + 1) * count + 1 := by ring
      have hsm : (k + 1) * count = k * count + count := Nat.succ_mul k count
      have hih := ih (k + 1) (by omega) (by omega)
      rw [hidx, hih]
      have hm : count < items.length - k * count := by omega
      have e1 : items.length - (k + 1) * count + count - 1
          = items.length - k * count - 1 := by omega
      have e2 : items.length - k * count + count - 1
          = (items.length - k * count - 1) + count := by omega
      rw [e1, e2, Nat.add_div_right _ hc]
      simp

/-- C3: the Netskope offset-pagination loops terminate exactly on a
display-name match, an empty page, or a satisfied total-results count, and
an empty page, a satisfied count, or a match ends the loop with no further
page request (request count 1 from that page on); consequently a full
listing of N items at page size P with no match issues exactly
the ceiling of N divided by P, written (N + P - 1) / P, requests — stated
for the group loop and, by the same page policy, for the user loop. -/
theorem netskope_pagination_termination_and_count :
    (∀ (items : List ScimResource) (name : String) (count fuel : Nat),
       0 < count → (∀ g ∈ items, g.displayName ≠ some name) →
       0 < items.length → items.length ≤ fuel * count →
       get_netskope_group_id_loop (honestScimFetch items count) name count 1 fuel
         = (some (.ok none), (items.length + count - 1) / count))
    ∧ (∀ (items : List ScimResource) (uname : String) (count fuel : Nat),
       0 < count → (∀ u ∈ items, pyLower (u.userName.getD "") ≠ pyLower uname) →
       0 < items.length → items.length ≤ fuel * count →
       get_netskope_user_id_loop (honestScimFetch items count) uname count 1 fuel
         = (some none, (items.length + count - 1) / count))
    ∧ (∀ (fetch : Nat → Except TransportError ScimPage) (name : String)
         (count s fuel t : Nat), fetch s = .ok ⟨[], t⟩ →
       get_netskope_group_id_loop fetch name count s (fuel + 1) = (some (.ok none), 1))
    ∧ (∀ (fetch : Nat → Except TransportError ScimPage) (name : String)
         (count s fuel : Nat) (page : ScimPage),
       fetch s = .ok page → page.resources.isEmpty = false →
       page.resources.find? (fun g => g.displayName == some name) = none →
       (page.totalResults < s + count ∨ page.resources.length < count) →
       get_netskope_group_id_loop fetch name count s (fuel + 1) = (some (.ok none), 1))
    ∧ (∀ (fetch : Nat → Except TransportError ScimPage) (name : String)
         (count s fuel : Nat) (page : ScimPage) (g : ScimResource),
       fetch s = .ok page →
       page.resources.find? (fun x => x.displayName == some name) = some g →
       get_netskope_group_id_loop fetch name count s (fuel + 1)
         = (some (.ok (some g.id)), 1)) := by
  refine ⟨?_, ?_, ?_, ?_, ?_⟩
  · intro items name count fuel hc hnm hpos hfl
    have h := group_loop_full_scan items name count hc hnm fuel 0
      (by simpa using hpos) (by simpa using hfl)
    simpa using h
  · intro items uname count fuel hc hnm hpos hfl
    have h := user_loop_full_scan items uname count hc hnm fuel 0
      (by simpa using hpos) (by simpa using hfl)
    simpa using h
  · intro fetch name count s fuel t hfetch
    simp [get_netskope_group_id_loop, hfetch]
  · intro fetch name count s fuel page hfetch hne hfind hcond
    rcases hcond with hcond | hcond
    · simp [get_netskope_group_id_loop, hfetch, hne, hfind, hcond]
    · simp [get_netskope_group_id_loop, hfetch, hne, hfind, hcond]
  · intro fetch name count s fuel page g hfetch hfind
    have hne : page.resources.isEmpty = false := by
      cases hres : page.resources with
      | nil => rw [hres] at hfind; simp at hfind
      | cons a l => rfl
    simp [get_netskope_group_id_loop, hfetch, hne, hfind]

/-- Witness for netskope_pagination_termination_and_count: a two-item
listing at page size one takes two requests for both loops; an empty page,
a satisfied total, and a found match each finish after one request. -/
theorem netskope_pagination_termination_and_count_witness :
    get_netskope_group_id_loop
        (honestScimFetch [⟨"id1", some "G1", none⟩, ⟨"id2", some "G2", none⟩] 1)
        "X" 1 1 2 = (some (.ok none), 2)
    ∧ get_netskope_user_id_loop
        (honestScimFetch [⟨"id1", some "G1", none⟩, ⟨"id2", some "G2", none⟩] 1)
        "x@y.z" 1 1 2 = (some none, 2)
    ∧ get_netskope_group_id_loop (fun _ => .ok ⟨[], 0⟩) "X" 100 1 1
        = (some (.ok none), 1)
    ∧ get_netskope_group_id_loop (fun _ => .ok ⟨[⟨"id1", some "A", none⟩], 1⟩)
        "B" 100 1 1 = (some (.ok none), 1)
    ∧ get_netskope_group_id_loop (fun _ => .ok ⟨[⟨"id1", some "A", none⟩], 1⟩)
        "A" 100 1 1 = (some (.ok (some "id1")), 1) :=
  ⟨netskope_pagination_termination_and_count.1
      [⟨"id1", some "G1", none⟩, ⟨"id2", some "G2", none⟩] "X" 1 2
      (by decide) (by decide) (by decide) (by decide),
   netskope_pagination_termination_and_count.2.1
      [⟨"id1", some "G1", none⟩, ⟨"id2", some "G2", none⟩] "x@y.z" 1 2
      (by decide) (by decide) (by decide) (by decide),
   netskope_pagination_termination_and_count.2.2.1
      (fun _ => .ok ⟨[], 0⟩) "X" 100 1 0 0 rfl,
   netskope_pagination_termination_and_count.2.2.2.1
      (fun _ => .ok ⟨[⟨"id1", some "A", none⟩], 1⟩) "B" 100 1 0
      ⟨[⟨"id1", some "A", none⟩], 1⟩ rfl rfl (by decide) (Or.inl (by decide)),
   netskope_pagination_termination_and_count.2.2.2.2
      (fun _ => .ok ⟨[⟨"id1", some "A", none⟩], 1⟩) "A" 100 1 0
      ⟨[⟨"id1", some "A", none⟩], 1⟩ ⟨"id1", some "A", none⟩ rfl (by decide)⟩

/-- Running the Entra members loop against the chained server from any page
index accumulates the filtered entries of all remaining pages in order. -/
theorem entra_loop_chain (pagesv : List (List EntraRawMember)) :
    ∀ (fuel i : Nat) (acc : List EntraMember), pagesv.length - i < fuel →
      (get_entra_group_members_loop (chainPages pagesv) (some i) acc fuel).1
        = some (.ok (acc ++ ((pagesv.drop i).join).filterMap entraProject)) := by
  intro fuel
  induction fuel with
  | zero => intro i acc h; omega
  | succ fuel ih =>
    intro i acc h
    cases hdrop : pagesv.drop i with
    | nil =>
      have hlen : pagesv.length ≤ i := List.drop_eq_nil_iff_le.mp hdrop
      have hnl : ¬ (i + 1 < pagesv.length) := by omega
      have hfetch : chainPages pagesv i = .ok ⟨[], none⟩ := by
        simp [chainPages, hdrop, hnl]
      simp [get_entra_group_members_loop, hfetch, hdrop]
    | cons v rest =>
      have hlen2 : rest.length + 1 = pagesv.length - i := by
        have hcg := congrArg List.length hdrop
        simpa [List.length_drop] using hcg.symm
      have hdropsucc : pagesv.drop (i + 1) = rest := by
        have ht : (pagesv.drop i).tail = pagesv.drop (i + 1) := List.tail_drop pagesv i
        rw [hdrop] at ht
        exact ht.symm
      cases rest with
      | nil =>
        have hnl : ¬ (i + 1 < pagesv.length) := by
          simp only [List.length_nil] at hlen2
          omega
        have hfetch : chainPages pagesv i = .ok ⟨v, none⟩ := by
          simp [chainPages, hdrop, hnl]
        simp [get_entra_group_members_loop, hfetch, hdrop]
      | cons w rest2 =>
        have hnl : i + 1 < pagesv.length := by
          simp only [List.length_cons] at hlen2
          omega
        have hfetch : chainPages pagesv i = .ok ⟨v, some (i + 1)⟩ := by
          simp [chainPages, hdrop, hnl]
        simp only [get_entra_group_members_loop, hfetch]
        have hrec := ih (i + 1) (acc ++ v.filterMap entraProject) (by omega)
        rw [hdropsucc] at hrec
        simp only [hrec, hdrop]
        simp [List.filterMap_append, List.append_assoc]

/-- Against the chained server with a failing page j, the loop reaches j and
aborts with the transport error, returning no partial result. -/
theorem entra_loop_chain_err (pagesv : List (List EntraRawMember)) (j : Nat)
    (e : TransportError) (hj : j < pagesv.length) :
    ∀ (fuel i : Nat) (acc : List EntraMember), i ≤ j → pagesv.length - i < fuel →
      (get_entra_group_members_loop (chainPagesErr pagesv j e) (some i) acc fuel).1
        = some (.error e) := by
  intro fuel
  induction fuel with
  | zero => intro i acc hij h; omega
  | succ fuel ih =>
    intro i acc hij h
    by_cases hieq : i = j
    · have hfetch : chainPagesErr pagesv j e i = .error e := by
        simp [chainPagesErr, hieq]
      simp [get_entra_group_members_loop, hfetch]
    · have hij2 : i < j := lt_of_le_of_ne hij hieq
      cases hdrop : pagesv.drop i with
      | nil =>
        have : pagesv.length ≤ i := List.drop_eq_nil_iff_le.mp hdrop
        omega
      | cons v rest =>
        have hlen2 : rest.length + 1 = pagesv.length - i := by
          have hcg := congrArg List.length hdrop
          simpa [List.length_drop] using hcg.symm
        have hnl : i + 1 < pagesv.length := by omega
        have hfetch : chainPagesErr pagesv j e i = .ok ⟨v, some (i + 1)⟩ := by
          simp [chainPagesErr, hieq, chainPages, hdrop, hnl]
        simp only [get_entra_group_members_loop, hfetch]
        exact ih (i + 1) (acc ++ v.filterMap entraProject) (by omega) (by omega)

/-- C6: get_entra_group_members follows the next-page link across every
page until it is absent, and returns exactly the user-typed entries with
both required fields (in order, via entraProject) accumulated over all
pages; if fetching any page fails, the whole listing aborts with that
transport error and no partial result. -/
theorem entra_members_pagination_and_abort (pagesv : List (List EntraRawMember))
    (gid : Option String) (fuel : Nat)
    (hg : optStrTruthy gid = true) (hfuel : pagesv.length < fuel) :
    (get_entra_group_members gid (chainPages pagesv) fuel).1
        = some (.ok (pagesv.join.filterMap entraProject))
    ∧ ∀ (j : Nat) (e : TransportError), j < pagesv.length →
        (get_entra_group_members gid (chainPagesErr pagesv j e) fuel).1
          = some (.error e) := by
  constructor
  · have h := entra_loop_chain pagesv fuel 0 [] (by omega)
    simpa [get_entra_group_members, hg] using h
  · intro j e hj
    have h := entra_loop_chain_err pagesv j e hj fuel 0 [] (by omega) (by omega)
    simpa [get_entra_group_members, hg] using h

/-- Two Graph pages for the C6 witness: an accepted user entry followed by
an entry filtered out by its type tag. -/
def entraExamplePages : List (List EntraRawMember) :=
  [[⟨some "#microsoft.graph.user", some "Alice A", some "alice@x.com"⟩],
   [⟨some "#microsoft.graph.group", some "Nested", some "n@x.com"⟩]]

/-- Witness for entra_members_pagination_and_abort on the two-page server,
including the abort when the second page fails. -/
theorem entra_members_pagination_and_abort_witness :
    (get_entra_group_members (some "gid-1") (chainPages entraExamplePages) 3).1
        = some (.ok (entraExamplePages.join.filterMap entraProject))
    ∧ (get_entra_group_members (some "gid-1")
          (chainPagesErr entraExamplePages 1 ⟨"boom"⟩) 3).1
        = some (.error ⟨"boom"⟩) :=
  ⟨(entra_members_pagination_and_abort entraExamplePages (some "gid-1") 3
      (by decide) (by decide)).1,
   (entra_members_pagination_and_abort entraExamplePages (some "gid-1") 3
      (by decide) (by decide)).2 1 ⟨"boom"⟩ (by decide)⟩

-- ==============================
-- The main function after fetch
-- ==============================

/-- Insertion-ordered Python dict update on an association list: the first
entry carrying the key is replaced in place, otherwise the pair is appended
at the end.  This is the overwrite semantics of the dict comprehension in
main. -/
def pyDictUpdate : List (String × String) → String → String → List (String × String)
  | [], k, v => [(k, v)]
  | p :: rest, k, v =>
    if p.1 == k then (k, v) :: rest else p :: pyDictUpdate rest k v

/-- Python dict lookup on the association list. -/
def pyDictLookup (m : List (String × String)) (k : String) : Option String :=
  (m.find? (fun p => p.1 == k)).map (fun p => p.2)

/-- Python dict key view, in insertion order. -/
def pyDictKeys (m : List (String × String)) : List String :=
  m.map (fun p => p.1)

/-- The dict comprehension of main (UpdateEntraUsers.py line 437,
updateUsersURLlib3.py line 301): displayName maps to userPrincipalName,
a later duplicate display name overwriting the earlier value. -/
def buildEntraUsersMap (l : List EntraMember) : List (String × String) :=
  l.foldl (fun m u => pyDictUpdate m u.displayName u.userPrincipalName) []

/-- The missing set of main (UpdateEntraUsers.py line 454): display names
present in the Entra snapshot and absent from the Netskope snapshot.  The
Python set is modelled as the key list of the insertion-ordered map,
filtered; no claim depends on iteration order. -/
def mainMissing (l : List EntraMember) (nsk : List String) : List String :=
  (pyDictKeys (buildEntraUsersMap l)).filter (fun n => !nsk.contains n)

/-- The resolution for-loop of main (UpdateEntraUsers.py lines 475-489,
updateUsersURLlib3.py lines 328-336): for each missing display name, its
UPN from the Entra map is resolved against Netskope via the resolveUser
oracle (get_netskope_user_id, whose transport errors are already collapsed
into none); a truthy id is appended to the patch list, any other outcome
records the name as a per-entry warning.  Returns (ids, warned names). -/
def resolveMissingLoop (lk resolveUser : String → Option String) :
    List String → List String × List String
  | [] => ([], [])
  | name :: rest =>
    let tail := resolveMissingLoop lk resolveUser rest
    match (lk name).bind resolveUser with
    | some i => if i != "" then (i :: tail.1, tail.2) else (tail.1, name :: tail.2)
    | none => (tail.1, name :: tail.2)

/-- Observable outcome of main from the comparison onwards. -/
structure MainOutcome where
  missing : List String
  allPresentMsg : Bool
  idsToAdd : List String
  warnings : List String
  patchCall : Option PatchPayload
  groupNotFoundErr : Bool
  noUsersMsg : Bool
deriving DecidableEq, Repr

/-- main after the two snapshots are fetched (UpdateEntraUsers.py lines
437-516, updateUsersURLlib3.py lines 301-346): build the display-name map,
diff the display-name sets, return early with the all-present message when
nothing is missing; otherwise resolve the missing entries, and either call
update_netskope_group (ids found and group id truthy), report the group as
not found (ids found, falsy group id), or report that there is nothing to
add. -/
def mainAfterFetch (entra_users_list : List EntraMember)
    (netskope_users_list : List String) (netskope_group_id : Option String)
    (resolveUser : String → Option String) : MainOutcome :=
  let missing := mainMissing entra_users_list netskope_users_list
  if missing.isEmpty then
    ⟨missing, true, [], [], none, false, false⟩
  else
    let rl := resolveMissingLoop (pyDictLookup (buildEntraUsersMap entra_users_list))
      resolveUser missing
    if !rl.1.isEmpty then
      if optStrTruthy netskope_group_id then
        ⟨missing, false, rl.1, rl.2,
         (update_netskope_group netskope_group_id rl.1).payload, false, false⟩
      else
        ⟨missing, false, rl.1, rl.2, none, true, false⟩
    else
      ⟨missing, false, rl.1, rl.2, none, false, true⟩

/-- Keys after a dict update: the updated key joins the key set. -/
theorem mem_pyDictKeys_update (m : List (String × String)) (k v q : String) :
    q ∈ pyDictKeys (pyDictUpdate m k v) ↔ q = k ∨ q ∈ pyDictKeys m := by
  induction m with
  | nil => simp [pyDictUpdate, pyDictKeys]
  | cons p rest ih =>
    by_cases hpk : p.1 == k
    · have hpk2 : p.1 = k := by simpa using hpk
      simp [pyDictUpdate, hpk, pyDictKeys, hpk2]
    · simp only [pyDictUpdate, hpk, Bool.false_eq_true, if_false]
      simp only [pyDictKeys, List.map_cons, List.mem_cons] at ih ⊢
      rw [show (q ∈ List.map (fun p => p.1) (pyDictUpdate rest k v)) ↔
            (q = k ∨ q ∈ List.map (fun p => p.1) rest) from ih]
      tauto

/-- A dict update preserves distinctness of the key list. -/
theorem nodup_pyDictKeys_update (m : List (String × String)) (k v : String)
    (h : (pyDictKeys m).Nodup) : (pyDictKeys (pyDictUpdate m k v)).Nodup := by
  induction m with
  | nil => simp [pyDictUpdate, pyDictKeys]
  | cons p rest ih =>
    simp only [pyDictKeys, List.map_cons, List.nodup_cons] at h
    by_cases hpk : p.1 == k
    · have hpk2 : p.1 = k := by simpa using hpk
      simp only [pyDictUpdate, hpk, if_true, pyDictKeys, List.map_cons,
        List.nodup_cons]
      exact ⟨by rw [← hpk2]; exact h.1, h.2⟩
    · have hpk2 : ¬ p.1 = k := by simpa using hpk
      simp only [pyDictUpdate, hpk, Bool.false_eq_true, if_false, pyDictKeys,
        List.map_cons, List.nodup_cons]
      refine ⟨?_, ih h.2⟩
      intro hcontra
      rcases (mem_pyDictKeys_update rest k v p.1).mp hcontra with h1 | h2
      · exact hpk2 h1
      · exact h.1 h2

/-- Dict lookup on a cons cell. -/
theorem pyDictLookup_cons (p : String × String) (rest : List (String × String))
    (q : String) :
    pyDictLookup (p :: rest) q
      = if p.1 == q then some p.2 else pyDictLookup rest q := by
  by_cases h : p.1 == q <;> simp [pyDictLookup, List.find?, h]

/-- Dict lookup after an update: the updated key now maps to the new value,
every other key is unchanged. -/
theorem pyDictLookup_update (m : List (String × String)) (k v q : String) :
    pyDictLookup (pyDictUpdate m k v) q
      = if k == q then some v else pyDictLookup m q := by
  induction m with
  | nil =>
    by_cases hkq : k == q <;>
      simp [pyDictUpdate, pyDictLookup, List.find?, hkq]
  | cons p rest ih =>
    by_cases hpk : p.1 == k
    · have hpk2 : p.1 = k := by simpa using hpk
      simp only [pyDictUpdate, hpk, if_true]
      rw [pyDictLookup_cons, pyDictLookup_cons]
      by_cases hkq : k == q
      · simp [hkq]
      · have hpq : (p.1 == q) = false := by rw [hpk2]; simpa using hkq
        simp [hkq, hpq]
    · simp only [pyDictUpdate, hpk, Bool.false_eq_true, if_false]
      rw [pyDictLookup_cons, pyDictLookup_cons, ih]
      by_cases hpq : p.1 == q
      · have hpq2 : p.1 = q := by simpa using hpq
        have hkq : (k == q) = false := by
          have hne : ¬ p.1 = k := by simpa using hpk
          rw [← hpq2]
          simpa using fun hx => hne hx.symm
        simp [hpq, hkq]
      · simp [hpq]

/-- Membership in the keys of the built Entra map is membership among the
display names. -/
theorem mem_buildEntraUsersMap_keys :
    ∀ (l : List EntraMember) (m : List (String × String)) (q : String),
      q ∈ pyDictKeys (l.foldl (fun a u => pyDictUpdate a u.displayName u.userPrincipalName) m)
        ↔ q ∈ pyDictKeys m ∨ q ∈ l.map (fun u => u.displayName) := by
  intro l
  induction l with
  | nil => intro m q; simp
  | cons u rest ih =>
    intro m q
    simp only [List.foldl_cons, List.map_cons, List.mem_cons]
    rw [ih]
    rw [mem_pyDictKeys_update]
    tauto

/-- The key list of the built Entra map has no duplicates. -/
theorem nodup_buildEntraUsersMap_keys :
    ∀ (l : List EntraMember) (m : List (String × String)),
      (pyDictKeys m).Nodup →
      (pyDictKeys (l.foldl (fun a u => pyDictUpdate a u.displayName u.userPrincipalName) m)).Nodup := by
  intro l
  induction l with
  | nil => intro m h; simpa using h
  | cons u rest ih =>
    intro m h
    simp only [List.foldl_cons]
    exact ih _ (nodup_pyDictKeys_update m _ _ h)

/-- Folding the member list into the dict gives last-duplicate-wins lookup:
the value is the userPrincipalName of the last matching entry, with the
base map as fallback. -/
theorem pyDictLookup_foldl (l : List EntraMember) :
    ∀ (m : List (String × String)) (q : String),
      pyDictLookup (l.foldl (fun a u => pyDictUpdate a u.displayName u.userPrincipalName) m) q
        = ((l.reverse.find? (fun u => u.displayName == q)).map
            (fun u => u.userPrincipalName)).or (pyDictLookup m q) := by
  induction l with
  | nil => intro m q; simp
  | cons u rest ih =>
    intro m q
    simp only [List.foldl_cons, List.reverse_cons, List.find?_append]
    rw [ih]
    rw [pyDictLookup_update]
    cases hfr : rest.reverse.find? (fun u => u.displayName == q) with
    | some w => simp [Option.or]
    | none =>
      by_cases hq : u.displayName == q
      · have hq2 : u.displayName = q := by simpa using hq
        simp [List.find?, hq, Option.or, hq2]
      · simp [List.find?, hq, Option.or]

/-- Lookup in the Entra users map is the last matching entry of the member
list. -/
theorem buildEntraUsersMap_lookup (l : List EntraMember) (q : String) :
    pyDictLookup (buildEntraUsersMap l) q
      = (l.reverse.find? (fun u => u.displayName == q)).map
          (fun u => u.userPrincipalName) := by
  rw [buildEntraUsersMap, pyDictLookup_foldl]
  simp [pyDictLookup]

/-- The resolution loop is the truthy-filterMap for ids and the falsy
filter for warnings. -/
theorem resolveMissingLoop_eq (lk rs : String → Option String) :
    ∀ names : List String,
      resolveMissingLoop lk rs names
        = (names.filterMap (fun n =>
             if optStrTruthy ((lk n).bind rs) then (lk n).bind rs else none),
           names.filter (fun n => !optStrTruthy ((lk n).bind rs))) := by
  intro names
  induction names with
  | nil => rfl
  | cons name rest ih =>
    simp only [resolveMissingLoop, ih]
    cases hnid : (lk name).bind rs with
    | none => simp [List.filterMap_cons, List.filter_cons, hnid, optStrTruthy]
    | some i =>
      by_cases hi : i != ""
      · simp [List.filterMap_cons, List.filter_cons, hnid, optStrTruthy, hi]
      · simp only [Bool.not_eq_true, bne_eq_false_iff_eq] at hi
        simp [List.filterMap_cons, List.filter_cons, hnid, optStrTruthy, hi]

/-- Membership in the missing list: an Entra display name not present in
the Netskope snapshot. -/
theorem mem_mainMissing (l : List EntraMember) (nsk : List String) (x : String) :
    x ∈ mainMissing l nsk ↔ x ∈ l.map (fun u => u.displayName) ∧ ¬ x ∈ nsk := by
  rw [mainMissing, List.mem_filter]
  rw [show buildEntraUsersMap l
      = l.foldl (fun a u => pyDictUpdate a u.displayName u.userPrincipalName) []
      from rfl]
  rw [mem_buildEntraUsersMap_keys l [] x]
  simp [pyDictKeys]

/-- When nothing is missing, main prints the all-present message and stops. -/
theorem mainAfterFetch_empty (l : List EntraMember) (nsk : List String)
    (gid : Option String) (r : String → Option String)
    (h : mainMissing l nsk = []) :
    mainAfterFetch l nsk gid r = ⟨[], true, [], [], none, false, false⟩ := by
  simp [mainAfterFetch, h]

/-- When names are missing but no id resolves, main reports that there is
nothing to add. -/
theorem mainAfterFetch_noids (l : List EntraMember) (nsk : List String)
    (gid : Option String) (r : String → Option String)
    (h1 : mainMissing l nsk ≠ [])
    (h2 : (resolveMissingLoop (pyDictLookup (buildEntraUsersMap l)) r
            (mainMissing l nsk)).1 = []) :
    mainAfterFetch l nsk gid r
      = ⟨mainMissing l nsk, false,
         (resolveMissingLoop (pyDictLookup (buildEntraUsersMap l)) r (mainMissing l nsk)).1,
         (resolveMissingLoop (pyDictLookup (buildEntraUsersMap l)) r (mainMissing l nsk)).2,
         none, false, true⟩ := by
  simp [mainAfterFetch, List.isEmpty_iff, h1, h2]

/-- When ids resolve and the group id is truthy, main submits the patch. -/
theorem mainAfterFetch_patch (l : List EntraMember) (nsk : List String)
    (gid : Option String) (r : String → Option String)
    (h1 : mainMissing l nsk ≠ [])
    (h2 : (resolveMissingLoop (pyDictLookup (buildEntraUsersMap l)) r
            (mainMissing l nsk)).1 ≠ [])
    (h3 : optStrTruthy gid = true) :
    mainAfterFetch l nsk gid r
      = ⟨mainMissing l nsk, false,
         (resolveMissingLoop (pyDictLookup (buildEntraUsersMap l)) r (mainMissing l nsk)).1,
         (resolveMissingLoop (pyDictLookup (buildEntraUsersMap l)) r (mainMissing l nsk)).2,
         (update_netskope_group gid
           (resolveMissingLoop (pyDictLookup (buildEntraUsersMap l)) r (mainMissing l nsk)).1).payload,
         false, false⟩ := by
  simp [mainAfterFetch, List.isEmpty_iff, h1, h2, h3]

/-- When ids resolve but the group id is falsy, main reports the group as
not found. -/
theorem mainAfterFetch_nogroup (l : List EntraMember) (nsk : List String)
    (gid : Option String) (r : String → Option String)
    (h1 : mainMissing l nsk ≠ [])
    (h2 : (resolveMissingLoop (pyDictLookup (buildEntraUsersMap l)) r
            (mainMissing l nsk)).1 ≠ [])
    (h3 : optStrTruthy gid = false) :
    mainAfterFetch l nsk gid r
      = ⟨mainMissing l nsk, false,
         (resolveMissingLoop (pyDictLookup (buildEntraUsersMap l)) r (mainMissing l nsk)).1,
         (resolveMissingLoop (pyDictLookup (buildEntraUsersMap l)) r (mainMissing l nsk)).2,
         none, true, false⟩ := by
  simp [mainAfterFetch, List.isEmpty_iff, h1, h2, h3]

/-- The missing field of the outcome, in every branch. -/
theorem mainAfterFetch_missing (l : List EntraMember) (nsk : List String)
    (gid : Option String) (r : String → Option String) :
    (mainAfterFetch l nsk gid r).missing = mainMissing l nsk := by
  by_cases h1 : mainMissing l nsk = []
  · rw [mainAfterFetch_empty l nsk gid r h1, h1]
  · by_cases h2 : (resolveMissingLoop (pyDictLookup (buildEntraUsersMap l)) r
        (mainMissing l nsk)).1 = []
    · rw [mainAfterFetch_noids l nsk gid r h1 h2]
    · by_cases h3 : optStrTruthy gid = true
      · rw [mainAfterFetch_patch l nsk gid r h1 h2 h3]
      · rw [mainAfterFetch_nogroup l nsk gid r h1 h2
          (by simpa using h3)]

/-- The id and warning fields of the outcome are the two components of the
resolution loop, in every branch. -/
theorem mainAfterFetch_resolution (l : List EntraMember) (nsk : List String)
    (gid : Option String) (r : String → Option String) :
    (mainAfterFetch l nsk gid r).idsToAdd
        = (resolveMissingLoop (pyDictLookup (buildEntraUsersMap l)) r (mainMissing l nsk)).1
    ∧ (mainAfterFetch l nsk gid r).warnings
        = (resolveMissingLoop (pyDictLookup (buildEntraUsersMap l)) r (mainMissing l nsk)).2 := by
  by_cases h1 : mainMissing l nsk = []
  · rw [mainAfterFetch_empty l nsk gid r h1, h1]
    exact ⟨rfl, rfl⟩
  · by_cases h2 : (resolveMissingLoop (pyDictLookup (buildEntraUsersMap l)) r
        (mainMissing l nsk)).1 = []
    · rw [mainAfterFetch_noids l nsk gid r h1 h2]
      exact ⟨rfl, rfl⟩
    · by_cases h3 : optStrTruthy gid = true
      · rw [mainAfterFetch_patch l nsk gid r h1 h2 h3]
        exact ⟨rfl, rfl⟩
      · rw [mainAfterFetch_nogroup l nsk gid r h1 h2 (by simpa using h3)]
        exact ⟨rfl, rfl⟩

/-- The resolved id list is non-empty exactly when some missing name
resolves to a truthy id. -/
theorem resolved_ids_ne_nil_iff (lk rs : String → Option String)
    (names : List String) :
    (resolveMissingLoop lk rs names).1 ≠ []
      ↔ ∃ n ∈ names, optStrTruthy ((lk n).bind rs) = true := by
  rw [resolveMissingLoop_eq]
  constructor
  · intro h
    by_contra hall
    push_neg at hall
    apply h
    rw [List.filterMap_eq_nil_iff]
    intro a ha
    have hfa := hall a ha
    simp only [Bool.not_eq_true] at hfa
    simp [hfa]
  · rintro ⟨n, hn, htr⟩ hnil
    rw [List.filterMap_eq_nil_iff] at hnil
    have hcn := hnil n hn
    rw [htr] at hcn
    simp only [if_true] at hcn
    rw [hcn] at htr
    simp [optStrTruthy] at htr

/-- C1: the missing set of main is the set difference of the Entra display
names and the Netskope display names; whenever the Entra display-name set
is contained in the Netskope one, the missing set is empty, no patch call is
made, and the all-present message is produced. -/
theorem main_missing_is_set_difference (l : List EntraMember) (nsk : List String)
    (gid : Option String) (r : String → Option String) :
    (mainAfterFetch l nsk gid r).missing.toFinset
        = (l.map (fun u => u.displayName)).toFinset \ nsk.toFinset
    ∧ ((l.map (fun u => u.displayName)).toFinset ⊆ nsk.toFinset →
        (mainAfterFetch l nsk gid r).missing = []
        ∧ (mainAfterFetch l nsk gid r).patchCall = none
        ∧ (mainAfterFetch l nsk gid r).allPresentMsg = true) := by
  constructor
  · rw [mainAfterFetch_missing]
    ext x
    simp only [List.mem_toFinset, Finset.mem_sdiff]
    exact mem_mainMissing l nsk x
  · intro hsub
    have hnil : mainMissing l nsk = [] := by
      rw [List.eq_nil_iff_forall_not_mem]
      intro x hx
      have hx2 := (mem_mainMissing l nsk x).mp hx
      exact hx2.2 (List.mem_toFinset.mp (hsub (List.mem_toFinset.mpr hx2.1)))
    rw [mainAfterFetch_empty l nsk gid r hnil]
    exact ⟨rfl, rfl, rfl⟩

/-- Witness for main_missing_is_set_difference: with the only Entra member
already present in Netskope, the run diffs to empty, patches nothing, and
prints the all-present message. -/
theorem main_missing_is_set_difference_witness :
    (mainAfterFetch [⟨"Alice A", "alice@x.com"⟩] ["Alice A"] none (fun _ => none)).missing = []
    ∧ (mainAfterFetch [⟨"Alice A", "alice@x.com"⟩] ["Alice A"] none (fun _ => none)).patchCall = none
    ∧ (mainAfterFetch [⟨"Alice A", "alice@x.com"⟩] ["Alice A"] none (fun _ => none)).allPresentMsg = true :=
  (main_missing_is_set_difference [⟨"Alice A", "alice@x.com"⟩] ["Alice A"] none
    (fun _ => none)).2 (by decide)

/-- C2: the patch call is made exactly when some missing member resolved to
a truthy Netskope id and the Netskope group id was found (truthy); whenever
no patch is made an explanatory message is produced (the all-present
message, the nothing-to-add message, or the group-not-found error), and
update_netskope_group itself is a skip-logging no-op whenever its group id
is falsy or its id list is empty. -/
theorem main_patch_iff_resolved_and_group_found (l : List EntraMember)
    (nsk : List String) (gid : Option String) (r : String → Option String) :
    ((mainAfterFetch l nsk gid r).patchCall.isSome = true
        ↔ (∃ n ∈ (mainAfterFetch l nsk gid r).missing,
             optStrTruthy ((pyDictLookup (buildEntraUsersMap l) n).bind r) = true)
          ∧ optStrTruthy gid = true)
    ∧ ((mainAfterFetch l nsk gid r).patchCall = none →
        (mainAfterFetch l nsk gid r).allPresentMsg = true
        ∨ (mainAfterFetch l nsk gid r).noUsersMsg = true
        ∨ (mainAfterFetch l nsk gid r).groupNotFoundErr = true)
    ∧ ∀ (g2 : Option String) (ids : List String),
        optStrTruthy g2 = false ∨ ids = [] →
        update_netskope_group g2 ids = ⟨none, true⟩ := by
  rw [mainAfterFetch_missing]
  refine ⟨?_, ?_, ?_⟩
  · by_cases h1 : mainMissing l nsk = []
    · rw [mainAfterFetch_empty l nsk gid r h1]
      simp [h1]
    · by_cases h2 : (resolveMissingLoop (pyDictLookup (buildEntraUsersMap l)) r
          (mainMissing l nsk)).1 = []
      · rw [mainAfterFetch_noids l nsk gid r h1 h2]
        simp only [Option.isSome_none, Bool.false_eq_true, false_iff]
        rintro ⟨⟨n, hn, htr⟩, -⟩
        exact (resolved_ids_ne_nil_iff _ r (mainMissing l nsk)).mpr ⟨n, hn, htr⟩ h2
      · by_cases h3 : optStrTruthy gid = true
        · rw [mainAfterFetch_patch l nsk gid r h1 h2 h3]
          have hup : (update_netskope_group gid
              (resolveMissingLoop (pyDictLookup (buildEntraUsersMap l)) r
                (mainMissing l nsk)).1).payload.isSome = true := by
            have hie : ((resolveMissingLoop (pyDictLookup (buildEntraUsersMap l)) r
                (mainMissing l nsk)).1).isEmpty = false := by
              simpa [List.isEmpty_iff] using h2
            simp [update_netskope_group, h3, hie]
          rw [hup]
          simp only [true_iff]
          exact ⟨(resolved_ids_ne_nil_iff _ r (mainMissing l nsk)).mp h2, h3⟩
        · rw [mainAfterFetch_nogroup l nsk gid r h1 h2 (by simpa using h3)]
          simp only [Option.isSome_none, Bool.false_eq_true, false_iff]
          rintro ⟨-, hgid⟩
          exact h3 hgid
  · by_cases h1 : mainMissing l nsk = []
    · rw [mainAfterFetch_empty l nsk gid r h1]
      intro hnone
      exact Or.inl rfl
    · by_cases h2 : (resolveMissingLoop (pyDictLookup (buildEntraUsersMap l)) r
          (mainMissing l nsk)).1 = []
      · rw [mainAfterFetch_noids l nsk gid r h1 h2]
        intro hnone
        exact Or.inr (Or.inl rfl)
      · by_cases h3 : optStrTruthy gid = true
        · rw [mainAfterFetch_patch l nsk gid r h1 h2 h3]
          intro hnone
          have hie : ((resolveMissingLoop (pyDictLookup (buildEntraUsersMap l)) r
              (mainMissing l nsk)).1).isEmpty = false := by
            simpa [List.isEmpty_iff] using h2
          simp [update_netskope_group, h3, hie] at hnone
        · rw [mainAfterFetch_nogroup l nsk gid r h1 h2 (by simpa using h3)]
          intro hnone
          exact Or.inr (Or.inr rfl)
  · intro g2 ids h
    rcases h with h | h
    · simp [update_netskope_group, h]
    · simp [update_netskope_group, h]

/-- Witness for main_patch_iff_resolved_and_group_found: the no-op of
update_netskope_group on a falsy group id. -/
theorem main_patch_iff_resolved_and_group_found_witness :
    update_netskope_group (some "") ["x1"] = ⟨none, true⟩ :=
  (main_patch_iff_resolved_and_group_found [] [] none (fun _ => none)).2.2
    (some "") ["x1"] (Or.inl rfl)

/-- C5: the warnings of a run are exactly the missing names whose
resolution is not truthy, the patch id list is exactly the truthy
resolutions of the remaining missing names (so a NotFound resolution is
excluded while the others still proceed), and every missing name whose
resolution fails lands in the warnings. -/
theorem main_resolution_failures_isolated (l : List EntraMember)
    (nsk : List String) (gid : Option String) (r : String → Option String) :
    ((mainAfterFetch l nsk gid r).warnings
        = (mainAfterFetch l nsk gid r).missing.filter
            (fun n => !optStrTruthy ((pyDictLookup (buildEntraUsersMap l) n).bind r)))
    ∧ ((mainAfterFetch l nsk gid r).idsToAdd
        = (mainAfterFetch l nsk gid r).missing.filterMap
            (fun n =>
              if optStrTruthy ((pyDictLookup (buildEntraUsersMap l) n).bind r)
              then (pyDictLookup (buildEntraUsersMap l) n).bind r else none))
    ∧ ∀ n ∈ (mainAfterFetch l nsk gid r).missing,
        optStrTruthy ((pyDictLookup (buildEntraUsersMap l) n).bind r) = false →
        n ∈ (mainAfterFetch l nsk gid r).warnings := by
  obtain ⟨hids, hwarn⟩ := mainAfterFetch_resolution l nsk gid r
  have hloop := resolveMissingLoop_eq (pyDictLookup (buildEntraUsersMap l)) r
    (mainMissing l nsk)
  refine ⟨?_, ?_, ?_⟩
  · rw [hwarn, mainAfterFetch_missing, hloop]
  · rw [hids, mainAfterFetch_missing, hloop]
  · intro n hn hfalse
    rw [hwarn, hloop]
    rw [mainAfterFetch_missing] at hn
    simp only [List.mem_filter]
    exact ⟨hn, by simp [hfalse]⟩

/-- Witness for main_resolution_failures_isolated: with two missing
members of which only one resolves, the unresolvable one is warned about
(and the other still lands in the id list, per the proved equations). -/
theorem main_resolution_failures_isolated_witness :
    "Bob B" ∈ (mainAfterFetch [⟨"Bob B", "bob@x.com"⟩, ⟨"Alice A", "alice@x.com"⟩]
        [] (some "g1")
        (fun s => if s == "alice@x.com" then some "abc-123" else none)).warnings :=
  (main_resolution_failures_isolated
      [⟨"Bob B", "bob@x.com"⟩, ⟨"Alice A", "alice@x.com"⟩] [] (some "g1")
      (fun s => if s == "alice@x.com" then some "abc-123" else none)).2.2
    "Bob B" (by decide) (by decide)

/-- C9: the Entra display-name map keeps the last duplicate for each
display name (lookup is the last matching entry of the member list), the
missing list never repeats a display name, and the id resolution of main
goes through the last duplicate's userPrincipalName. -/
theorem entra_map_last_duplicate_wins :
    (∀ (l : List EntraMember) (q : String),
       pyDictLookup (buildEntraUsersMap l) q
         = (l.reverse.find? (fun u => u.displayName == q)).map
             (fun u => u.userPrincipalName))
    ∧ (∀ (l : List EntraMember) (nsk : List String) (gid : Option String)
         (r : String → Option String),
       (mainAfterFetch l nsk gid r).missing.Nodup)
    ∧ (∀ (l : List EntraMember) (nsk : List String) (gid : Option String)
         (r : String → Option String),
       (mainAfterFetch l nsk gid r).idsToAdd
         = (mainAfterFetch l nsk gid r).missing.filterMap
             (fun n =>
               if optStrTruthy (((l.reverse.find? (fun u => u.displayName == n)).map
                   (fun u => u.userPrincipalName)).bind r)
               then ((l.reverse.find? (fun u => u.displayName == n)).map
                   (fun u => u.userPrincipalName)).bind r
               else none)) := by
  refine ⟨fun l q => buildEntraUsersMap_lookup l q, ?_, ?_⟩
  · intro l nsk gid r
    rw [mainAfterFetch_missing, mainMissing]
    exact List.Nodup.filter _
      (nodup_buildEntraUsersMap_keys l [] (by simp [pyDictKeys]))
  · intro l nsk gid r
    have hfun : (fun n =>
          if optStrTruthy ((pyDictLookup (buildEntraUsersMap l) n).bind r)
          then (pyDictLookup (buildEntraUsersMap l) n).bind r else none)
        = (fun n =>
          if optStrTruthy (((l.reverse.find? (fun u => u.displayName == n)).map
              (fun u => u.userPrincipalName)).bind r)
          then ((l.reverse.find? (fun u => u.displayName == n)).map
              (fun u => u.userPrincipalName)).bind r
          else none) := by
      funext n
      rw [buildEntraUsersMap_lookup]
    rw [(mainAfterFetch_resolution l nsk gid r).1, mainAfterFetch_missing,
      resolveMissingLoop_eq, ← hfun]
